import Mathlib

/-!
# Verification of the `cap` interactive TUI core

A shallow embedding, in Lean 4, of the interactive terminal session engine
of the `cap` memo tool (`src/tui/state.rs`, `src/tui/handler.rs`,
`src/tui/mod.rs`), together with theorems checking the natural-language
specification against it.

Modelling conventions:
* Rust `String`s are modelled as `List Char` (`Str` below); all cursor
  arithmetic in the source is in character units (byte indices are derived
  via `byte_index_at_char` and used only to address whole characters), so
  the character-level list is a faithful view.
* `usize` arithmetic becomes `Nat`; the source's `saturating_sub`/
  `saturating_add` coincide with truncated `Nat` subtraction and `Nat`
  addition at the sizes involved.
* External collaborators (the unicode-width tables, `char::to_lowercase`,
  the sqlite storage layer, the crossterm terminal calls) are parameters:
  the theorems hold for every instantiation.
-/

namespace Cap

abbrev Str := List Char

/-- `InputCursor` from `src/tui/state.rs`. -/
structure InputCursor where
  line : Nat
  col : Nat
  preferred_col : Option Nat
deriving Repr, DecidableEq

def InputCursor.new : InputCursor := { line := 0, col := 0, preferred_col := none }

/-- `InputState` from `src/tui/state.rs`. -/
structure InputState where
  lines : List Str
  status : Option Str
  cursor : InputCursor
deriving Repr, DecidableEq

def InputState.new : InputState :=
  { lines := [[]], status := none, cursor := InputCursor.new }

/-- `InputState::current_line_len`: character count of the cursor's line
(`lines.get(cursor.line) |>.map(chars().count()).unwrap_or(0)`). -/
def InputState.current_line_len (s : InputState) : Nat :=
  (s.lines.getD s.cursor.line []).length

/-- `InputState::ensure_invariants`: push an empty line if none, clamp the
cursor line, then clamp the cursor column (against the character count of
the line the clamped cursor sits on). -/
def InputState.ensure_invariants (s : InputState) : InputState :=
  let lines := if s.lines.isEmpty then s.lines ++ [([] : Str)] else s.lines
  let line := if s.cursor.line ≥ lines.length then lines.length - 1 else s.cursor.line
  let lineLen := (lines.getD line []).length
  let col := if s.cursor.col > lineLen then lineLen else s.cursor.col
  { s with lines := lines, cursor := { s.cursor with line := line, col := col } }

/-- `InputState::reset_edit_state`: clear the preferred column and status. -/
def InputState.reset_edit_state (s : InputState) : InputState :=
  { s with cursor := { s.cursor with preferred_col := none }, status := none }

/-- `InputState::insert_char`. `byte_index_at_char` addresses the
`cursor.col`-th character, so on the character list the insertion happens at
index `cursor.col` (the repaired cursor satisfies `col ≤ len`). -/
def InputState.insert_char (ch : Char) (s : InputState) : InputState :=
  let s := s.ensure_invariants
  let line := s.lines.getD s.cursor.line []
  let line' := line.insertIdx s.cursor.col ch
  InputState.reset_edit_state
    { s with lines := s.lines.set s.cursor.line line',
             cursor := { s.cursor with col := s.cursor.col + 1 } }

/-- `InputState::backspace`. -/
def InputState.backspace (s : InputState) : InputState :=
  let s := s.ensure_invariants
  if s.cursor.col > 0 then
    let line := s.lines.getD s.cursor.line []
    let line' := line.eraseIdx (s.cursor.col - 1)
    InputState.reset_edit_state
      { s with lines := s.lines.set s.cursor.line line',
               cursor := { s.cursor with col := s.cursor.col - 1 } }
  else if s.cursor.line > 0 then
    let current := s.lines.getD s.cursor.line []
    let lines := s.lines.eraseIdx s.cursor.line
    let newLine := s.cursor.line - 1
    let prev := lines.getD newLine []
    InputState.reset_edit_state
      { s with lines := lines.set newLine (prev ++ current),
               cursor := { s.cursor with line := newLine, col := prev.length } }
  else s

/-- `InputState::delete_char` (forward delete). -/
def InputState.delete_char (s : InputState) : InputState :=
  let s := s.ensure_invariants
  let lineLen := s.current_line_len
  if s.cursor.col < lineLen then
    let line := s.lines.getD s.cursor.line []
    let line' := line.eraseIdx s.cursor.col
    InputState.reset_edit_state { s with lines := s.lines.set s.cursor.line line' }
  else if s.cursor.line + 1 < s.lines.length then
    let nextLine := s.lines.getD (s.cursor.line + 1) []
    let lines := s.lines.eraseIdx (s.cursor.line + 1)
    let cur := lines.getD s.cursor.line []
    InputState.reset_edit_state { s with lines := lines.set s.cursor.line (cur ++ nextLine) }
  else s

/-- `InputState::newline`: split the cursor line at the cursor column. -/
def InputState.newline (s : InputState) : InputState :=
  let s := s.ensure_invariants
  let line := s.lines.getD s.cursor.line []
  let head := line.take s.cursor.col
  let tail := line.drop s.cursor.col
  let lines := (s.lines.set s.cursor.line head).insertIdx (s.cursor.line + 1) tail
  InputState.reset_edit_state
    { s with lines := lines,
             cursor := { s.cursor with line := s.cursor.line + 1, col := 0 } }

/-- `InputState::clear`. -/
def InputState.clear (_s : InputState) : InputState :=
  { lines := [[]], status := none, cursor := InputCursor.new }

/-- `InputState::text`: the lines joined by `"\n"`. -/
def InputState.text (s : InputState) : Str :=
  (s.lines.intersperse [Char.ofNat 10]).flatten

/-- `InputState::is_empty`. -/
def InputState.is_empty (s : InputState) : Bool :=
  s.lines.length == 1 && (s.lines.getD 0 []).isEmpty

/-- `InputState::move_left`. In the line-change branch the source first
decrements `cursor.line` and then reads `current_line_len()`, so the new
column is the length of line `cursor.line - 1`. -/
def InputState.move_left (s : InputState) : InputState :=
  let s := s.ensure_invariants
  let c :=
    if s.cursor.col > 0 then
      { s.cursor with col := s.cursor.col - 1 }
    else if s.cursor.line > 0 then
      { s.cursor with
          line := s.cursor.line - 1
          col := (s.lines.getD (s.cursor.line - 1) []).length }
    else s.cursor
  { s with cursor := { c with preferred_col := none } }

/-- `InputState::move_right`. -/
def InputState.move_right (s : InputState) : InputState :=
  let s := s.ensure_invariants
  let lineLen := s.current_line_len
  let c :=
    if s.cursor.col < lineLen then
      { s.cursor with col := s.cursor.col + 1 }
    else if s.cursor.line + 1 < s.lines.length then
      { s.cursor with line := s.cursor.line + 1, col := 0 }
    else s.cursor
  { s with cursor := { c with preferred_col := none } }

/-- `InputState::move_up`. The target column is
`preferred_col.unwrap_or(col)`; the displayed column is the target clamped
to the destination line's length (`target_col.min(current_line_len)` read
after the line change). -/
def InputState.move_up (s : InputState) : InputState :=
  let s := s.ensure_invariants
  if s.cursor.line = 0 then s
  else
    let targetCol := s.cursor.preferred_col.getD s.cursor.col
    let newLine := s.cursor.line - 1
    { s with cursor :=
        { line := newLine
          col := min targetCol (s.lines.getD newLine []).length
          preferred_col := some targetCol } }

/-- `InputState::move_down`. -/
def InputState.move_down (s : InputState) : InputState :=
  let s := s.ensure_invariants
  if s.cursor.line + 1 ≥ s.lines.length then s
  else
    let targetCol := s.cursor.preferred_col.getD s.cursor.col
    let newLine := s.cursor.line + 1
    { s with cursor :=
        { line := newLine
          col := min targetCol (s.lines.getD newLine []).length
          preferred_col := some targetCol } }

/-! ## Cursor projection (`width_up_to_char`, `wrapped_cursor_position`)

The unicode-width tables are external; the functions are parametrised by a
character-width function `cw` (`UnicodeWidthChar::width(ch).unwrap_or(0)`),
and a line's display width (`UnicodeWidthStr::width`) is the sum of its
characters' widths. -/

/-- `width_up_to_char`: display width of the first `charIndex` characters. -/
def width_up_to_char (cw : Char → Nat) (value : Str) (charIndex : Nat) : Nat :=
  ((value.take charIndex).map cw).sum

/-- `UnicodeWidthStr::width` of a line, as the sum of character widths. -/
def strWidth (cw : Char → Nat) (value : Str) : Nat :=
  (value.map cw).sum

/-- `wrapped_cursor_position` from `src/tui/state.rs`. -/
def wrapped_cursor_position (cw : Char → Nat) (lines : List Str) (cursor : InputCursor)
    (content_width : Nat) : Nat × Nat :=
  let cursorLine := min cursor.line (lines.length - 1)
  let rowsBefore :=
    ((lines.take cursorLine).map (fun line =>
      let lineWidth := strWidth cw line
      (if lineWidth = 0 then 0 else (lineWidth - 1) / content_width) + 1)).sum
  let line := lines.getD cursorLine []
  let cursorCol := min cursor.col line.length
  let prefixWidth := width_up_to_char cw line cursorCol
  let rowInLine := prefixWidth / content_width
  let colInLine := prefixWidth % content_width
  (rowsBefore + rowInLine, colInLine)

/-! ## Search, focus, and the composed `TuiState` -/

/-- `Focus` from `src/tui/state.rs`. -/
inductive Focus
  | Search
  | Input
  | History
deriving Repr, DecidableEq

/-- `SearchState` from `src/tui/state.rs`. -/
structure SearchState where
  query : Str
deriving Repr, DecidableEq

def SearchState.new : SearchState := { query := [] }

def SearchState.insert_char (ch : Char) (s : SearchState) : SearchState :=
  { s with query := s.query ++ [ch] }

def SearchState.backspace (s : SearchState) : SearchState :=
  { s with query := s.query.dropLast }

def SearchState.clear (s : SearchState) : SearchState :=
  { s with query := [] }

/-- `str::to_lowercase`, parametrised by the per-character lowering `lc`
(`char::to_lowercase` may produce several characters). -/
def strLower (lc : Char → List Char) (s : Str) : Str :=
  s.flatMap lc

/-- `TuiState` from `src/tui/state.rs`. The history entries are
`(created_at, content)` pairs. -/
structure TuiState where
  search : SearchState
  input : InputState
  history : List (Str × Str)
  all_history : List (Str × Str)
  focus : Focus
  history_index : Option Nat
deriving Repr, DecidableEq

/-- `TuiState::first_history_index`. -/
def TuiState.first_history_index (s : TuiState) : Option Nat :=
  if s.history.isEmpty then none else some 0

/-- `str::contains(&needle)`: substring containment. -/
def strContains (haystack needle : Str) : Bool :=
  decide (needle <:+: haystack)

/-- `TuiState::apply_search`: recompute the filtered history and reset the
selection to the first entry. -/
def TuiState.apply_search (lc : Char → List Char) (s : TuiState) : TuiState :=
  let s' :=
    if s.search.query.isEmpty then
      { s with history := s.all_history }
    else
      let needle := strLower lc s.search.query
      { s with history := s.all_history.filter (fun entry =>
          strContains (strLower lc entry.2) needle || strContains (strLower lc entry.1) needle) }
  { s' with history_index := s'.first_history_index }

/-- `TuiState::new`. -/
def TuiState.new (lc : Char → List Char) (history : List (Str × Str)) : TuiState :=
  TuiState.apply_search lc
    { search := SearchState.new
      input := InputState.new
      history := []
      all_history := history
      focus := Focus.Input
      history_index := none }

/-- `TuiState::toggle_focus`. -/
def TuiState.toggle_focus (s : TuiState) : TuiState :=
  { s with focus :=
      match s.focus with
      | Focus.Search => Focus.History
      | Focus.History => Focus.Input
      | Focus.Input => Focus.History }

/-- `TuiState::activate_search`. -/
def TuiState.activate_search (lc : Char → List Char) (s : TuiState) : TuiState :=
  TuiState.apply_search lc { s with focus := Focus.Search, search := s.search.clear }

/-- `TuiState::set_history`. -/
def TuiState.set_history (lc : Char → List Char) (history : List (Str × Str))
    (s : TuiState) : TuiState :=
  TuiState.apply_search lc { s with all_history := history }

/-- `TuiState::move_history_selection_up`. -/
def TuiState.move_history_selection_up (s : TuiState) : TuiState :=
  match s.history_index with
  | none => { s with history_index := s.first_history_index }
  | some current =>
    if current > 0 then { s with history_index := some (current - 1) } else s

/-- `TuiState::move_history_selection_down`. -/
def TuiState.move_history_selection_down (s : TuiState) : TuiState :=
  match s.history_index with
  | none => { s with history_index := s.first_history_index }
  | some current =>
    if current < s.history.length - 1 then { s with history_index := some (current + 1) } else s

/-! ## Key handling and action dispatch (`src/tui/handler.rs`)

The storage layer is an external collaborator; a `StorageOracle` fixes the
outcomes of the (at most one) insert call and the (at most one) fetch call
an action can make, and the dispatcher additionally returns the trace of
storage calls it performed: the list of inserted contents and the number of
history fetches. -/

/-- `Action` from `src/tui/handler.rs`. -/
inductive Action
  | Quit
  | ToggleFocus
  | ActivateSearch
  | SubmitInput
  | InsertNewline
  | MoveUp
  | MoveDown
  | MoveLeft
  | MoveRight
  | Backspace
  | Delete
  | InsertChar (ch : Char)
deriving Repr, DecidableEq

/-- The `crossterm` key codes the handler distinguishes. -/
inductive KeyCode
  | Tab
  | Enter
  | Esc
  | Up
  | Down
  | Left
  | Right
  | Backspace
  | Delete
  | Char (ch : Char)
  | OtherKey
deriving Repr, DecidableEq

/-- The `crossterm` modifier bits the handler reads. -/
structure KeyModifiers where
  ctrl : Bool
  shift : Bool
  alt : Bool
deriving Repr, DecidableEq

/-- The `KeyModifiers::CONTROL` constant (exactly the control bit). -/
def KeyModifiers.control : KeyModifiers := { ctrl := true, shift := false, alt := false }

/-- `is_submit_key`. -/
def is_submit_key (code : KeyCode) (modifiers : KeyModifiers) : Bool :=
  modifiers.ctrl &&
    (code == KeyCode.Enter || code == KeyCode.Char (Char.ofNat 10) ||
     code == KeyCode.Char (Char.ofNat 13) || code == KeyCode.Char 'm' ||
     code == KeyCode.Char 'j')

/-- `is_newline_key`. -/
def is_newline_key (code : KeyCode) : Bool :=
  code == KeyCode.Enter || code == KeyCode.Char (Char.ofNat 10) ||
    code == KeyCode.Char (Char.ofNat 13)

/-- `key_to_action` from `src/tui/handler.rs`: priority-ordered mapping of
`(code, modifiers, focus)` to a semantic action. -/
def key_to_action (code : KeyCode) (modifiers : KeyModifiers) (focus : Focus) :
    Option Action :=
  if (code = KeyCode.Char 'c' ∧ modifiers = KeyModifiers.control) ∨ code = KeyCode.Esc then
    some Action.Quit
  else if focus = Focus.History ∧ (code = KeyCode.Char 'q' ∨ code = KeyCode.Char 'Q') then
    some Action.Quit
  else if code = KeyCode.Tab then
    some Action.ToggleFocus
  else if focus = Focus.History ∧ code = KeyCode.Char '/' then
    some Action.ActivateSearch
  else if is_submit_key code modifiers then
    some Action.SubmitInput
  else if is_newline_key code then
    some Action.InsertNewline
  else
    match code with
    | KeyCode.Up => some Action.MoveUp
    | KeyCode.Down => some Action.MoveDown
    | KeyCode.Left => some Action.MoveLeft
    | KeyCode.Right => some Action.MoveRight
    | KeyCode.Backspace => some Action.Backspace
    | KeyCode.Delete => if focus = Focus.Input then some Action.Delete else none
    | KeyCode.Char ch =>
      if ch = 'k' ∧ focus = Focus.History then some Action.MoveUp
      else if ch = 'j' ∧ focus = Focus.History then some Action.MoveDown
      else
        match focus with
        | Focus.History => none
        | Focus.Input => some (Action.InsertChar ch)
        | Focus.Search => some (Action.InsertChar ch)
    | _ => none

/-- A storage error is opaque to the TUI core. -/
structure StorageErr where
  code : Nat
deriving Repr, DecidableEq

/-- Outcomes of the storage collaborator's calls during one action. -/
structure StorageOracle where
  insertResult : Except StorageErr Unit
  fetchResult : Except StorageErr (List (Str × Str))

/-- Trace of storage calls made while handling one action. -/
structure StorageTrace where
  inserts : List Str
  fetches : Nat
deriving Repr, DecidableEq

/-- `submit_input_if_ready` from `src/tui/handler.rs`. The state is mutated
in place in the source, so the post-state is returned on every path: on the
guard failing or any storage call failing the state is exactly the input
state (`?` returns before any mutation — `set_history` runs only after a
successful fetch, `input.clear` only after that). The storage calls made are
recorded in a `StorageTrace`; the content of the one insert call is
`NewMemo::new(state.input.text())`, the joined buffer verbatim. -/
def submit_input_if_ready (lc : Char → List Char) (o : StorageOracle) (s : TuiState) :
    TuiState × Except StorageErr Unit × StorageTrace :=
  if s.focus ≠ Focus.Input then
    (s, Except.ok (), ⟨[], 0⟩)
  else if s.input.is_empty then
    (s, Except.ok (), ⟨[], 0⟩)
  else
    let content := s.input.text
    match o.insertResult with
    | Except.error e => (s, Except.error e, ⟨[content], 0⟩)
    | Except.ok _ =>
      match o.fetchResult with
      | Except.error e => (s, Except.error e, ⟨[content], 1⟩)
      | Except.ok history =>
        let t := TuiState.set_history lc history s
        ({ t with input := t.input.clear }, Except.ok (), ⟨[content], 1⟩)

/-- `insert_newline_if_input_focus`. -/
def insert_newline_if_input_focus (s : TuiState) : TuiState :=
  if s.focus = Focus.Input then { s with input := s.input.newline } else s

/-- `apply_action` from `src/tui/handler.rs`: the `Bool` is the quit flag;
the post-state is returned on every path (the source mutates in place, so an
error from `SubmitInput` still leaves a definite state). Only `SubmitInput`
touches storage; every other action leaves the trace empty. -/
def apply_action (lc : Char → List Char) (o : StorageOracle) (s : TuiState) (a : Action) :
    TuiState × Except StorageErr Bool × StorageTrace :=
  match a with
  | Action.Quit => (s, Except.ok true, ⟨[], 0⟩)
  | Action.ToggleFocus => (s.toggle_focus, Except.ok false, ⟨[], 0⟩)
  | Action.ActivateSearch => (s.activate_search lc, Except.ok false, ⟨[], 0⟩)
  | Action.SubmitInput =>
    let r := submit_input_if_ready lc o s
    (r.1, r.2.1.map (fun _ => false), r.2.2)
  | Action.InsertNewline => (insert_newline_if_input_focus s, Except.ok false, ⟨[], 0⟩)
  | Action.MoveUp =>
    let s' :=
      match s.focus with
      | Focus.History => s.move_history_selection_up
      | Focus.Input => { s with input := s.input.move_up }
      | Focus.Search => s
    (s', Except.ok false, ⟨[], 0⟩)
  | Action.MoveDown =>
    let s' :=
      match s.focus with
      | Focus.History => s.move_history_selection_down
      | Focus.Input => { s with input := s.input.move_down }
      | Focus.Search => s
    (s', Except.ok false, ⟨[], 0⟩)
  | Action.MoveLeft =>
    let s' := if s.focus = Focus.Input then { s with input := s.input.move_left } else s
    (s', Except.ok false, ⟨[], 0⟩)
  | Action.MoveRight =>
    let s' := if s.focus = Focus.Input then { s with input := s.input.move_right } else s
    (s', Except.ok false, ⟨[], 0⟩)
  | Action.Backspace =>
    let s' :=
      match s.focus with
      | Focus.Input => { s with input := s.input.backspace }
      | Focus.Search => TuiState.apply_search lc { s with search := s.search.backspace }
      | Focus.History => s
    (s', Except.ok false, ⟨[], 0⟩)
  | Action.Delete =>
    let s' := if s.focus = Focus.Input then { s with input := s.input.delete_char } else s
    (s', Except.ok false, ⟨[], 0⟩)
  | Action.InsertChar ch =>
    let s' :=
      match s.focus with
      | Focus.Input => { s with input := s.input.insert_char ch }
      | Focus.Search => TuiState.apply_search lc { s with search := s.search.insert_char ch }
      | Focus.History => s
    (s', Except.ok false, ⟨[], 0⟩)

/-! ## Terminal setup/teardown (`src/tui/mod.rs`)

The crossterm calls are external; each cleanup sub-step is modelled as a
function on an abstract terminal state that also reports an optional error.
`restore_terminal` threads the terminal state through every sub-step and
keeps the first error, exactly as the source does with `first_error`. -/

section Terminal

variable {T E : Type}

/-- Keep the first error: `if first_error.is_none() { first_error = Some(err) }`. -/
def keepFirst (firstError : Option E) (e : Option E) : Option E :=
  match firstError with
  | some err => some err
  | none => e

/-- `restore_terminal` from `src/tui/mod.rs`: run `disable_raw_mode`, the
keyboard-enhancement pop (only when enhancement was pushed), the
mouse-capture/alternate-screen restore, and `show_cursor`, unconditionally
and in that order, returning the final terminal state and the first error. -/
def restore_terminal (keyboard_enhanced : Bool)
    (disableRaw popKeyboard leaveScreen showCursor : T → T × Option E) (t : T) :
    T × Option E :=
  let r1 := disableRaw t
  let firstError := keepFirst none r1.2
  let r2 := if keyboard_enhanced then popKeyboard r1.1 else (r1.1, none)
  let firstError := keepFirst firstError r2.2
  let r3 := leaveScreen r2.1
  let firstError := keepFirst firstError r3.2
  let r4 := showCursor r3.1
  let firstError := keepFirst firstError r4.2
  (r4.1, firstError)

/-- `TerminalGuard`: just the `restored` flag matters for call accounting. -/
structure TerminalGuard where
  restored : Bool
deriving Repr, DecidableEq

/-- `TerminalGuard::restore`: runs the teardown only when not yet restored;
returns the guard, the teardown result, and how many times the teardown ran. -/
def TerminalGuard.restore (g : TerminalGuard) : TerminalGuard × Nat :=
  if g.restored then (g, 0) else ({ restored := true }, 1)

/-- `Drop for TerminalGuard`: runs the teardown only when not yet restored. -/
def TerminalGuard.drop (g : TerminalGuard) : Nat :=
  if g.restored then 0 else 1

/-- `run_tui` control flow from `src/tui/mod.rs`, after the guard was
created: the initial fetch may fail (the `?` drops the guard), otherwise the
loop runs to some result, the guard is restored explicitly, and the final
result is `result.and(restore_result)`. Returns the session result and the
number of times the teardown ran. -/
def run_tui_flow (fetchResult : Except StorageErr (List (Str × Str)))
    (loopResult : Except StorageErr Unit) (restoreResult : Except StorageErr Unit) :
    Except StorageErr Unit × Nat :=
  let g : TerminalGuard := { restored := false }
  match fetchResult with
  | Except.error e => (Except.error e, g.drop)
  | Except.ok _ =>
    let result := loopResult
    let (g, n) := g.restore
    let combined :=
      match result with
      | Except.error e => Except.error e
      | Except.ok _ => restoreResult
    (combined, n + g.drop)

end Terminal

/-! ## List helper lemmas -/

theorem getD_set_self {α : Type} (l : List α) (i : Nat) (x d : α) (h : i < l.length) :
    (l.set i x).getD i d = x := by
  simp [List.getD_eq_getElem?_getD, List.getElem?_set_self h]

theorem getD_eq_getElem {α : Type} (l : List α) (i : Nat) (d : α) (h : i < l.length) :
    l.getD i d = l[i] := by
  simp [List.getD_eq_getElem?_getD, List.getElem?_eq_getElem h]

theorem getD_set_ne {α : Type} (l : List α) (i j : Nat) (x d : α) (h : i ≠ j) :
    (l.set i x).getD j d = l.getD j d := by
  simp [List.getD_eq_getElem?_getD, List.getElem?_set_ne h]

theorem getElem?_eraseIdx_of_lt {α : Type} (l : List α) (i j : Nat) (hj : j < i)
    (hi : i < l.length) : (l.eraseIdx i)[j]? = l[j]? := by
  rw [List.eraseIdx_eq_take_drop_succ, List.getElem?_append]
  simp [List.getElem?_take, hj, List.length_take]
  omega

theorem getD_eraseIdx_of_lt {α : Type} (l : List α) (i j : Nat) (hj : j < i)
    (hi : i < l.length) (d : α) : (l.eraseIdx i).getD j d = l.getD j d := by
  simp [List.getD_eq_getElem?_getD, getElem?_eraseIdx_of_lt l i j hj hi]

/-! ## C1: the buffer invariant -/

/-- The invariant of the spec: at least one line, the cursor line in range,
and the cursor column at most the character count of its line. -/
def InputState.Invariant (s : InputState) : Prop :=
  s.lines ≠ [] ∧ s.cursor.line < s.lines.length ∧
    s.cursor.col ≤ (s.lines.getD s.cursor.line []).length

instance (s : InputState) : Decidable s.Invariant :=
  inferInstanceAs (Decidable (_ ∧ _ ∧ _))

theorem InputState.ensure_invariants_invariant (s : InputState) :
    s.ensure_invariants.Invariant := by
  unfold InputState.ensure_invariants InputState.Invariant
  dsimp only
  set L := if s.lines.isEmpty then s.lines ++ [([] : Str)] else s.lines with hL
  have hne : L ≠ [] := by
    rw [hL]
    split
    · simp
    · next h => simpa [List.isEmpty_iff] using h
  have hlen : 0 < L.length := List.length_pos.mpr hne
  set li := if s.cursor.line ≥ L.length then L.length - 1 else s.cursor.line with hli
  have hlil : li < L.length := by
    rw [hli]
    split <;> omega
  refine ⟨hne, hlil, ?_⟩
  set n := (L.getD li []).length with hn
  split
  · exact Nat.le_refl n
  · next h => omega

/-- The sequence-of-edits part of the claim: the three text-editing
operations, folded over the buffer. -/
inductive EditOp
  | insert (ch : Char)
  | backspace
  | newline
deriving Repr, DecidableEq

def applyEdit (op : EditOp) (s : InputState) : InputState :=
  match op with
  | EditOp.insert ch => s.insert_char ch
  | EditOp.backspace => s.backspace
  | EditOp.newline => s.newline

def applyEdits (ops : List EditOp) (s : InputState) : InputState :=
  ops.foldl (fun t op => applyEdit op t) s

theorem invariant_insert_char (s : InputState) (ch : Char) :
    (s.insert_char ch).Invariant := by
  obtain ⟨h1, h2, h3⟩ := s.ensure_invariants_invariant
  unfold InputState.insert_char InputState.reset_edit_state
  dsimp only
  set t := s.ensure_invariants with ht
  refine ⟨by simpa [List.set_eq_nil_iff] using h1, by simpa using h2, ?_⟩
  dsimp only
  rw [getD_set_self _ _ _ _ h2, List.length_insertIdx _ _ h3]
  omega

theorem invariant_backspace (s : InputState) :
    s.backspace.Invariant := by
  obtain ⟨h1, h2, h3⟩ := s.ensure_invariants_invariant
  unfold InputState.backspace InputState.reset_edit_state
  dsimp only
  set t := s.ensure_invariants with ht
  by_cases hc : t.cursor.col > 0
  · rw [if_pos hc]
    refine ⟨by simpa [List.set_eq_nil_iff] using h1, by simpa using h2, ?_⟩
    dsimp only
    rw [getD_set_self _ _ _ _ h2, List.length_eraseIdx_of_lt (by omega)]
    omega
  · rw [if_neg hc]
    by_cases hl : t.cursor.line > 0
    · rw [if_pos hl]
      have herase : (t.lines.eraseIdx t.cursor.line).length = t.lines.length - 1 :=
        List.length_eraseIdx_of_lt h2
      have hlt : t.cursor.line - 1 < (t.lines.eraseIdx t.cursor.line).length := by omega
      refine ⟨?_, ?_, ?_⟩
      · intro hnil
        have := congrArg List.length hnil
        simp only [List.length_set, List.length_nil] at this
        omega
      · simpa using hlt
      · rw [getD_set_self _ _ _ _ hlt]
        simp
    · rw [if_neg hl]
      exact ⟨h1, h2, h3⟩

theorem invariant_delete_char (s : InputState) :
    s.delete_char.Invariant := by
  obtain ⟨h1, h2, h3⟩ := s.ensure_invariants_invariant
  unfold InputState.delete_char InputState.reset_edit_state InputState.current_line_len
  dsimp only
  set t := s.ensure_invariants with ht
  by_cases hc : t.cursor.col < (t.lines.getD t.cursor.line []).length
  · rw [if_pos hc]
    refine ⟨by simpa [List.set_eq_nil_iff] using h1, by simpa using h2, ?_⟩
    dsimp only
    rw [getD_set_self _ _ _ _ h2, List.length_eraseIdx_of_lt hc]
    omega
  · rw [if_neg hc]
    by_cases hl : t.cursor.line + 1 < t.lines.length
    · rw [if_pos hl]
      have herase : (t.lines.eraseIdx (t.cursor.line + 1)).length = t.lines.length - 1 :=
        List.length_eraseIdx_of_lt hl
      have hlt : t.cursor.line < (t.lines.eraseIdx (t.cursor.line + 1)).length := by omega
      refine ⟨?_, ?_, ?_⟩
      · intro hnil
        have := congrArg List.length hnil
        simp only [List.length_set, List.length_nil] at this
        omega
      · simpa using hlt
      · rw [getD_set_self _ _ _ _ hlt,
          getD_eraseIdx_of_lt _ _ _ (by omega) hl]
        simp only [List.length_append]
        omega
    · rw [if_neg hl]
      exact ⟨h1, h2, h3⟩

theorem invariant_newline (s : InputState) :
    s.newline.Invariant := by
  obtain ⟨h1, h2, h3⟩ := s.ensure_invariants_invariant
  unfold InputState.newline InputState.reset_edit_state
  dsimp only
  set t := s.ensure_invariants with ht
  have hinslen :
      ((t.lines.set t.cursor.line ((t.lines.getD t.cursor.line []).take t.cursor.col)).insertIdx
        (t.cursor.line + 1) ((t.lines.getD t.cursor.line []).drop t.cursor.col)).length =
      t.lines.length + 1 := by
    rw [List.length_insertIdx _ _ (by simpa using h2), List.length_set]
  refine ⟨?_, ?_, ?_⟩
  · intro hnil
    have := congrArg List.length hnil
    rw [hinslen] at this
    simp at this
  · dsimp only
    rw [hinslen]
    omega
  · dsimp only
    exact Nat.zero_le _

theorem invariant_move_left (s : InputState) :
    s.move_left.Invariant := by
  obtain ⟨h1, h2, h3⟩ := s.ensure_invariants_invariant
  unfold InputState.move_left
  dsimp only
  set t := s.ensure_invariants with ht
  by_cases hc : t.cursor.col > 0
  · rw [if_pos hc]
    exact ⟨h1, h2, by dsimp only; omega⟩
  · rw [if_neg hc]
    by_cases hl : t.cursor.line > 0
    · rw [if_pos hl]
      exact ⟨h1, by dsimp only; omega, by dsimp only; exact Nat.le_refl _⟩
    · rw [if_neg hl]
      exact ⟨h1, h2, h3⟩

theorem invariant_move_right (s : InputState) :
    s.move_right.Invariant := by
  obtain ⟨h1, h2, h3⟩ := s.ensure_invariants_invariant
  unfold InputState.move_right InputState.current_line_len
  dsimp only
  set t := s.ensure_invariants with ht
  by_cases hc : t.cursor.col < (t.lines.getD t.cursor.line []).length
  · rw [if_pos hc]
    exact ⟨h1, h2, by dsimp only; omega⟩
  · rw [if_neg hc]
    by_cases hl : t.cursor.line + 1 < t.lines.length
    · rw [if_pos hl]
      exact ⟨h1, by dsimp only; omega, by dsimp only; exact Nat.zero_le _⟩
    · rw [if_neg hl]
      exact ⟨h1, h2, h3⟩

theorem invariant_move_up (s : InputState) :
    s.move_up.Invariant := by
  obtain ⟨h1, h2, h3⟩ := s.ensure_invariants_invariant
  unfold InputState.move_up
  dsimp only
  set t := s.ensure_invariants with ht
  by_cases hz : t.cursor.line = 0
  · rw [if_pos hz]
    exact ⟨h1, h2, h3⟩
  · rw [if_neg hz]
    exact ⟨h1, by dsimp only; omega, by dsimp only; exact Nat.min_le_right _ _⟩

theorem invariant_move_down (s : InputState) :
    s.move_down.Invariant := by
  obtain ⟨h1, h2, h3⟩ := s.ensure_invariants_invariant
  unfold InputState.move_down
  dsimp only
  set t := s.ensure_invariants with ht
  by_cases hz : t.cursor.line + 1 ≥ t.lines.length
  · rw [if_pos hz]
    exact ⟨h1, h2, h3⟩
  · rw [if_neg hz]
    exact ⟨h1, by dsimp only; omega, by dsimp only; exact Nat.min_le_right _ _⟩

theorem invariant_clear (s : InputState) :
    s.clear.Invariant := by
  unfold InputState.clear
  decide

theorem invariant_applyEdits (s : InputState) (hs : s.Invariant) (ops : List EditOp) :
    (applyEdits ops s).Invariant := by
  induction ops generalizing s with
  | nil => exact hs
  | cons op rest ih =>
    have hstep : (applyEdit op s).Invariant := by
      cases op with
      | insert ch => exact invariant_insert_char s ch
      | backspace => exact invariant_backspace s
      | newline => exact invariant_newline s
    exact ih _ hstep

/-- Claim C1: For every `InputBuffer` state, including states whose cursor is out
of range or whose line list is empty, each single buffer operation
(`insert_char`, `backspace`, `delete_forward`, `newline`, `move_left`,
`move_right`, `move_up`, `move_down`, `clear`) leaves a state with a
non-empty line list, `cursor.line < lines.len()`, and
`cursor.col ≤ char_count(lines[cursor.line])`; consequently these bounds
hold after every operation of any sequence of insert/backspace/newline
operations started from a valid state. -/
theorem buffer_ops_preserve_invariant (s : InputState) (ch : Char) :
    (s.insert_char ch).Invariant ∧ s.backspace.Invariant ∧ s.delete_char.Invariant ∧
      s.newline.Invariant ∧ s.move_left.Invariant ∧ s.move_right.Invariant ∧
      s.move_up.Invariant ∧ s.move_down.Invariant ∧ s.clear.Invariant ∧
      (s.Invariant → ∀ ops : List EditOp, (applyEdits ops s).Invariant) :=
  ⟨invariant_insert_char s ch, invariant_backspace s, invariant_delete_char s,
    invariant_newline s, invariant_move_left s, invariant_move_right s,
    invariant_move_up s, invariant_move_down s, invariant_clear s,
    fun hs ops => invariant_applyEdits s hs ops⟩

/-- Witness for C1 at a concrete buffer and edit sequence. -/
theorem buffer_ops_preserve_invariant_witness :
    InputState.new.Invariant ∧
      (applyEdits [EditOp.insert 'a', EditOp.newline, EditOp.backspace]
        InputState.new).Invariant :=
  ⟨by decide,
    (buffer_ops_preserve_invariant InputState.new 'a').2.2.2.2.2.2.2.2.2 (by decide)
      [EditOp.insert 'a', EditOp.newline, EditOp.backspace]⟩

/-! ## C3: the cursor projection -/

/-- For `W ≥ 1`, the row count the source computes for one wrapped line
(`(if L = 0 then 0 else (L-1)/W) + 1`) is the spec's `max 1 ⌈L/W⌉`. -/
theorem rows_of_line_eq_max_ceil (W : Nat) (hW : 1 ≤ W) (L : Nat) :
    (if L = 0 then 0 else (L - 1) / W) + 1 = max 1 ((L + W - 1) / W) := by
  rcases Nat.eq_zero_or_pos L with h | h
  · subst h
    rw [if_pos rfl, Nat.div_eq_of_lt (by omega)]
    simp
  · rw [if_neg (by omega)]
    have hrw : L + W - 1 = (L - 1) + W := by omega
    rw [hrw, Nat.add_div_right _ (show 0 < W by omega)]
    exact (Nat.max_eq_right (Nat.le_add_left 1 _)).symm

/-- Claim C3: For a valid cursor and any content width `W ≥ 1`, the projected
visual position is: the sum over the lines strictly before the cursor line
of `max 1 ⌈L/W⌉` rows (an empty line contributing one row), plus
`prefix_width / W` for the row, with column `prefix_width % W`, where
`prefix_width` is the display width of the cursor line's text strictly
before the cursor; in particular with `W = 10` and the cursor at character
offset 22 of a single 25-cell line the result is `(2, 2)`. -/
theorem wrapped_cursor_position_spec (cw : Char → Nat) (lines : List Str)
    (cursor : InputCursor) (W : Nat) (hW : 1 ≤ W) (hline : cursor.line < lines.length)
    (hcol : cursor.col ≤ (lines.getD cursor.line []).length) :
    wrapped_cursor_position cw lines cursor W =
      (((lines.take cursor.line).map
          (fun line => max 1 ((strWidth cw line + W - 1) / W))).sum
         + width_up_to_char cw (lines.getD cursor.line []) cursor.col / W,
       width_up_to_char cw (lines.getD cursor.line []) cursor.col % W) ∧
      wrapped_cursor_position (fun _ => 1) [List.replicate 25 'a'] ⟨0, 22, none⟩ 10 =
        (2, 2) := by
  constructor
  · unfold wrapped_cursor_position
    have hmin : min cursor.line (lines.length - 1) = cursor.line := by omega
    have hcolmin : min cursor.col (lines.getD cursor.line []).length = cursor.col := by omega
    rw [hmin]
    dsimp only
    rw [hcolmin]
    congr 1
    congr 1
    exact congrArg List.sum
      (List.map_congr_left fun line _ => rows_of_line_eq_max_ceil W hW (strWidth cw line))
  · decide

/-- Witness for C3 at the spec's concrete example. -/
theorem wrapped_cursor_position_spec_witness :
    wrapped_cursor_position (fun _ => 1) [List.replicate 25 'a'] ⟨0, 22, none⟩ 10 =
      ((([List.replicate 25 'a'].take 0).map
          (fun line => max 1 ((strWidth (fun _ => 1) line + 10 - 1) / 10))).sum
         + width_up_to_char (fun _ => 1) ([List.replicate 25 'a'].getD 0 []) 22 / 10,
       width_up_to_char (fun _ => 1) ([List.replicate 25 'a'].getD 0 []) 22 % 10) :=
  (wrapped_cursor_position_spec (fun _ => 1) [List.replicate 25 'a'] ⟨0, 22, none⟩ 10
    (by decide) (by decide) (by decide)).1

/-! ## C5: insert-then-backspace round trip -/

theorem set_getD_self {α : Type} (l : List α) (i : Nat) (h : i < l.length) (d : α) :
    l.set i (l.getD i d) = l := by
  rw [getD_eq_getElem l i d h]
  apply List.ext_getElem
  · simp
  · intro n h1 h2
    rw [List.getElem_set]
    split
    · next he => subst he; rfl
    · rfl

/-- On a state already satisfying the invariant, the defensive repair is the
identity. -/
theorem InputState.ensure_invariants_eq_self (s : InputState) (hs : s.Invariant) :
    s.ensure_invariants = s := by
  obtain ⟨h1, h2, h3⟩ := hs
  unfold InputState.ensure_invariants
  dsimp only
  rw [if_neg (by simpa [List.isEmpty_iff] using h1), if_neg (by omega), if_neg (by omega)]

/-- `insert_char` on a valid state, written out. -/
theorem insert_char_eq (s : InputState) (hs : s.Invariant) (ch : Char) :
    s.insert_char ch =
      ⟨s.lines.set s.cursor.line ((s.lines.getD s.cursor.line []).insertIdx s.cursor.col ch),
        none, ⟨s.cursor.line, s.cursor.col + 1, none⟩⟩ := by
  unfold InputState.insert_char InputState.reset_edit_state
  rw [s.ensure_invariants_eq_self hs]

/-- `backspace` on a valid state with a positive column, written out. -/
theorem backspace_pos_eq (u : InputState) (hu : u.Invariant) (hc : u.cursor.col > 0) :
    u.backspace =
      ⟨u.lines.set u.cursor.line ((u.lines.getD u.cursor.line []).eraseIdx (u.cursor.col - 1)),
        none, ⟨u.cursor.line, u.cursor.col - 1, none⟩⟩ := by
  unfold InputState.backspace InputState.reset_edit_state
  rw [u.ensure_invariants_eq_self hu, if_pos hc]

/-- The observable part of the round-trip claim: the text and the cursor
position (the transient status and preferred column are not part of it). -/
def textCursor (s : InputState) : List Str × Nat × Nat :=
  (s.lines, s.cursor.line, s.cursor.col)

theorem textCursor_backspace_insert (s : InputState) (hs : s.Invariant) (ch : Char) :
    textCursor ((s.insert_char ch).backspace) = textCursor s := by
  have h2 := hs.2.1
  have h3 := hs.2.2
  have hins := insert_char_eq s hs ch
  have hinv : (s.insert_char ch).Invariant := invariant_insert_char s ch
  have hpos : (s.insert_char ch).cursor.col > 0 := by
    rw [hins]
    exact Nat.succ_pos _
  rw [backspace_pos_eq _ hinv hpos, hins]
  unfold textCursor
  dsimp only
  refine congrArg (fun l => (l, s.cursor.line, s.cursor.col)) ?_
  rw [Nat.add_sub_cancel, getD_set_self _ _ _ _ h2, List.eraseIdx_insertIdx,
    List.set_set, set_getD_self _ _ h2]

/-- `backspace` only reads and writes the text and the cursor position, so
it maps `textCursor`-equal states to `textCursor`-equal states. -/
theorem textCursor_backspace_congr (a b : InputState) (h : textCursor a = textCursor b) :
    textCursor a.backspace = textCursor b.backspace := by
  obtain ⟨la, sta, ca⟩ := a
  obtain ⟨lb, stb, cb⟩ := b
  obtain ⟨cal, cac, cap⟩ := ca
  obtain ⟨cbl, cbc, cbp⟩ := cb
  simp only [textCursor, Prod.mk.injEq] at h
  obtain ⟨h1, h2, h3⟩ := h
  subst h1
  subst h2
  subst h3
  unfold InputState.backspace InputState.ensure_invariants InputState.reset_edit_state textCursor
  dsimp only
  split_ifs <;> rfl

def insertSeq (cs : List Char) (s : InputState) : InputState :=
  cs.foldl (fun t c => t.insert_char c) s

theorem textCursor_roundtrip (s : InputState) (hs : s.Invariant) (cs : List Char) :
    textCursor (InputState.backspace^[cs.length] (insertSeq cs s)) = textCursor s := by
  induction cs generalizing s with
  | nil => rfl
  | cons c rest ih =>
    have hstep : (s.insert_char c).Invariant := invariant_insert_char s c
    have hrec := ih (s.insert_char c) hstep
    calc textCursor (InputState.backspace^[rest.length + 1] (insertSeq (c :: rest) s))
        = textCursor
            (InputState.backspace
              (InputState.backspace^[rest.length] (insertSeq rest (s.insert_char c)))) := by
          rw [Function.iterate_succ_apply']
          rfl
      _ = textCursor (InputState.backspace (s.insert_char c)) :=
          textCursor_backspace_congr _ _ hrec
      _ = textCursor s := textCursor_backspace_insert s hs c

/-- Claim C5: From any state satisfying the invariant, inserting the characters
`c1..cn` and then backspacing `n` times returns the buffer to its original
lines and its original cursor line and column. -/
theorem insert_backspace_roundtrip (s : InputState) (hs : s.Invariant) (cs : List Char) :
    (InputState.backspace^[cs.length] (insertSeq cs s)).lines = s.lines ∧
      (InputState.backspace^[cs.length] (insertSeq cs s)).cursor.line = s.cursor.line ∧
      (InputState.backspace^[cs.length] (insertSeq cs s)).cursor.col = s.cursor.col := by
  have h := textCursor_roundtrip s hs cs
  unfold textCursor at h
  exact ⟨congrArg Prod.fst h, congrArg (fun p => p.2.1) h, congrArg (fun p => p.2.2) h⟩

/-- Witness for C5 at a concrete state and character list. -/
theorem insert_backspace_roundtrip_witness :
    (InputState.backspace^[3] (insertSeq ['a', 'b', 'c'] InputState.new)).lines =
        InputState.new.lines ∧
      (InputState.backspace^[3]
          (insertSeq ['a', 'b', 'c'] InputState.new)).cursor.line =
        InputState.new.cursor.line ∧
      (InputState.backspace^[3]
          (insertSeq ['a', 'b', 'c'] InputState.new)).cursor.col =
        InputState.new.cursor.col :=
  insert_backspace_roundtrip InputState.new (by decide) ['a', 'b', 'c']

/-! ## C4: sticky-column behaviour of the vertical moves -/

theorem move_down_sticky (s : InputState) (hs : s.Invariant)
    (h : s.cursor.line + 1 < s.lines.length) :
    (s.move_down).cursor.preferred_col = some (s.cursor.preferred_col.getD s.cursor.col) ∧
      (s.move_down).cursor.col = min (s.cursor.preferred_col.getD s.cursor.col)
        (s.lines.getD (s.cursor.line + 1) []).length ∧
      (s.move_down).cursor.line = s.cursor.line + 1 := by
  unfold InputState.move_down
  rw [s.ensure_invariants_eq_self hs, if_neg (by omega)]
  exact ⟨rfl, rfl, rfl⟩

theorem move_up_sticky (s : InputState) (hs : s.Invariant) (h : s.cursor.line ≠ 0) :
    (s.move_up).cursor.preferred_col = some (s.cursor.preferred_col.getD s.cursor.col) ∧
      (s.move_up).cursor.col = min (s.cursor.preferred_col.getD s.cursor.col)
        (s.lines.getD (s.cursor.line - 1) []).length ∧
      (s.move_up).cursor.line = s.cursor.line - 1 := by
  unfold InputState.move_up
  rw [s.ensure_invariants_eq_self hs, if_neg h]
  exact ⟨rfl, rfl, rfl⟩

theorem move_up_noop (s : InputState) (hs : s.Invariant) (h : s.cursor.line = 0) :
    s.move_up = s := by
  unfold InputState.move_up
  rw [s.ensure_invariants_eq_self hs, if_pos h]

theorem move_down_noop (s : InputState) (hs : s.Invariant)
    (h : s.cursor.line + 1 ≥ s.lines.length) : s.move_down = s := by
  unfold InputState.move_down
  rw [s.ensure_invariants_eq_self hs, if_pos h]

theorem insert_char_clears_pref (s : InputState) (ch : Char) :
    (s.insert_char ch).cursor.preferred_col = none := rfl

theorem newline_clears_pref (s : InputState) :
    s.newline.cursor.preferred_col = none := rfl

theorem clear_clears_pref (s : InputState) :
    s.clear.cursor.preferred_col = none := rfl

theorem move_left_clears_pref (s : InputState) :
    s.move_left.cursor.preferred_col = none := rfl

theorem move_right_clears_pref (s : InputState) :
    s.move_right.cursor.preferred_col = none := rfl

theorem backspace_clears_pref (s : InputState) (hs : s.Invariant)
    (h : ¬(s.cursor.col = 0 ∧ s.cursor.line = 0)) :
    s.backspace.cursor.preferred_col = none := by
  unfold InputState.backspace
  rw [s.ensure_invariants_eq_self hs]
  by_cases hc : s.cursor.col > 0
  · rw [if_pos hc]
    rfl
  · rw [if_neg hc, if_pos (by omega)]
    rfl

theorem backspace_noop (s : InputState) (hs : s.Invariant) (hc : s.cursor.col = 0)
    (hl : s.cursor.line = 0) : s.backspace = s := by
  unfold InputState.backspace
  rw [s.ensure_invariants_eq_self hs, if_neg (by omega), if_neg (by omega)]

theorem delete_clears_pref (s : InputState) (hs : s.Invariant)
    (h : s.cursor.col < (s.lines.getD s.cursor.line []).length ∨
      s.cursor.line + 1 < s.lines.length) :
    s.delete_char.cursor.preferred_col = none := by
  unfold InputState.delete_char InputState.current_line_len
  rw [s.ensure_invariants_eq_self hs]
  by_cases hc : s.cursor.col < (s.lines.getD s.cursor.line []).length
  · rw [if_pos hc]
    rfl
  · rw [if_neg hc, if_pos (h.resolve_left hc)]
    rfl

theorem delete_noop (s : InputState) (hs : s.Invariant)
    (hc : ¬ s.cursor.col < (s.lines.getD s.cursor.line []).length)
    (hl : ¬ s.cursor.line + 1 < s.lines.length) : s.delete_char = s := by
  unfold InputState.delete_char InputState.current_line_len
  rw [s.ensure_invariants_eq_self hs, if_neg hc, if_neg hl]

/-- The spec's concrete sticky-column example buffer. -/
def stickyExample : InputState :=
  ⟨[['h', 'e', 'l', 'l', 'o'], ['h', 'i'], ['h', 'e', 'l', 'l', 'o']], none, ⟨0, 5, none⟩⟩

/-- Counterexample to C4 as stated: a no-op backspace at the start of the
buffer is an edit operation that does not clear `preferred_col`. The state
is reached from the valid state `(lines = ["", "abc"], cursor = (1,2))` by a
single `move_up`, which sets `preferred_col = some 2`; the following
`backspace` leaves it set. -/
theorem backspace_keeps_pref_counterexample :
    (((⟨[[], ['a', 'b', 'c']], none, ⟨1, 2, none⟩⟩ : InputState).move_up).backspace).cursor.preferred_col
      = some 2 := by decide

/-- Claim C4, amended: vertical moves remember the column in effect before the
first vertical move of a run (`preferred_col`) and reuse it as the target of
every later vertical move, clamping the displayed column to the target
line's length; ineffective vertical moves (at the first or last line) leave
the state unchanged; `insert_char`, `newline`, `clear`, `move_left` and
`move_right` always clear `preferred_col`; `backspace` and `delete_forward`
clear it whenever they edit, the only exceptions being the no-op `backspace`
at the very start of the buffer and the no-op `delete_forward` at the very
end, which leave the whole state (including `preferred_col`) unchanged; in
particular, from lines `["hello","hi","hello"]` with the cursor at line 0
column 5, the sequence `move_down, move_down, move_up, move_up` returns the
cursor to line 0 column 5. -/
theorem sticky_column_behaviour (s : InputState) (hs : s.Invariant) (ch : Char) :
    (s.cursor.line + 1 < s.lines.length →
      (s.move_down).cursor.preferred_col = some (s.cursor.preferred_col.getD s.cursor.col) ∧
        (s.move_down).cursor.col = min (s.cursor.preferred_col.getD s.cursor.col)
          (s.lines.getD (s.cursor.line + 1) []).length ∧
        (s.move_down).cursor.line = s.cursor.line + 1) ∧
      (s.cursor.line ≠ 0 →
        (s.move_up).cursor.preferred_col = some (s.cursor.preferred_col.getD s.cursor.col) ∧
          (s.move_up).cursor.col = min (s.cursor.preferred_col.getD s.cursor.col)
            (s.lines.getD (s.cursor.line - 1) []).length ∧
          (s.move_up).cursor.line = s.cursor.line - 1) ∧
      (s.cursor.line = 0 → s.move_up = s) ∧
      (s.cursor.line + 1 ≥ s.lines.length → s.move_down = s) ∧
      (s.insert_char ch).cursor.preferred_col = none ∧
      s.newline.cursor.preferred_col = none ∧
      s.clear.cursor.preferred_col = none ∧
      s.move_left.cursor.preferred_col = none ∧
      s.move_right.cursor.preferred_col = none ∧
      (¬(s.cursor.col = 0 ∧ s.cursor.line = 0) →
        s.backspace.cursor.preferred_col = none) ∧
      (s.cursor.col = 0 ∧ s.cursor.line = 0 → s.backspace = s) ∧
      ((s.cursor.col < (s.lines.getD s.cursor.line []).length ∨
          s.cursor.line + 1 < s.lines.length) →
        s.delete_char.cursor.preferred_col = none) ∧
      (¬ s.cursor.col < (s.lines.getD s.cursor.line []).length →
        ¬ s.cursor.line + 1 < s.lines.length → s.delete_char = s) ∧
      (stickyExample.move_down.move_down.move_up.move_up).cursor.line = 0 ∧
      (stickyExample.move_down.move_down.move_up.move_up).cursor.col = 5 :=
  ⟨fun h => move_down_sticky s hs h,
    fun h => move_up_sticky s hs h,
    fun h => move_up_noop s hs h,
    fun h => move_down_noop s hs h,
    insert_char_clears_pref s ch,
    newline_clears_pref s,
    clear_clears_pref s,
    move_left_clears_pref s,
    move_right_clears_pref s,
    fun h => backspace_clears_pref s hs h,
    fun h => backspace_noop s hs h.1 h.2,
    fun h => delete_clears_pref s hs h,
    fun hc hl => delete_noop s hs hc hl,
    by decide, by decide⟩

/-- Witness for C4 at a concrete valid state. -/
theorem sticky_column_behaviour_witness :
    (stickyExample.move_down).cursor.preferred_col =
        some (stickyExample.cursor.preferred_col.getD stickyExample.cursor.col) ∧
      (stickyExample.move_down).cursor.col =
        min (stickyExample.cursor.preferred_col.getD stickyExample.cursor.col)
          (stickyExample.lines.getD (stickyExample.cursor.line + 1) []).length ∧
      (stickyExample.move_down).cursor.line = stickyExample.cursor.line + 1 :=
  (sticky_column_behaviour stickyExample (by decide) 'a').1 (by decide)

/-! ## C6: the search filter -/

/-- ASCII instantiation of the per-character lowering, for concrete runs. -/
def asciiLower : Char → List Char := fun c => [c.toLower]

/-- The spec's concrete search example state: query `"abc"` over the history
`[("t1","abcdef"), ("t2","xyz")]`. -/
def searchExample : TuiState :=
  { search := { query := ['a', 'b', 'c'] }
    input := InputState.new
    history := []
    all_history := [(['t', '1'], ['a', 'b', 'c', 'd', 'e', 'f']), (['t', '2'], ['x', 'y', 'z'])]
    focus := Focus.Input
    history_index := none }

/-- Claim C6: `apply_search` keeps exactly the entries of the full history, in
their original order, whose content or timestamp contains the query as a
case-insensitive substring; an empty query returns the full history
unchanged; in particular the query `"abc"` over
`[("t1","abcdef"), ("t2","xyz")]` keeps only the first pair. -/
theorem apply_search_filter_spec (lc : Char → List Char) (st : TuiState) :
    (st.apply_search lc).history =
      st.all_history.filter (fun e =>
        decide (strLower lc st.search.query <:+: strLower lc e.2 ∨
          strLower lc st.search.query <:+: strLower lc e.1)) ∧
      (st.search.query = [] → (st.apply_search lc).history = st.all_history) ∧
      (searchExample.apply_search asciiLower).history =
        [(['t', '1'], ['a', 'b', 'c', 'd', 'e', 'f'])] := by
  have hmain : (st.apply_search lc).history =
      st.all_history.filter (fun e =>
        decide (strLower lc st.search.query <:+: strLower lc e.2 ∨
          strLower lc st.search.query <:+: strLower lc e.1)) := by
    unfold TuiState.apply_search
    dsimp only
    split
    · next hq =>
      have hq' : st.search.query = [] := by simpa [List.isEmpty_iff] using hq
      rw [hq']
      refine (List.filter_eq_self.mpr ?_).symm
      intro e _
      have : (strLower lc [] : Str) = [] := rfl
      rw [this]
      simp [ List.nil_infix]
    · next hq =>
      unfold strContains
      simp only [Bool.decide_or]
  refine ⟨hmain, fun hq => ?_, by decide⟩
  rw [hmain, hq]
  refine List.filter_eq_self.mpr ?_
  intro e _
  have : (strLower lc [] : Str) = [] := rfl
  rw [this]
  simp [ List.nil_infix]

/-- Witness for C6: the empty query is the identity on a concrete state. -/
theorem apply_search_filter_spec_witness :
    (({ searchExample with
        search := { query := [] } } : TuiState).apply_search asciiLower).history =
      ({ searchExample with search := { query := [] } } : TuiState).all_history :=
  (apply_search_filter_spec asciiLower _).2.1 rfl

/-! ## C7: the history selection invariant -/

/-- The spec's selection invariant: a selected index in range exactly when
the filtered history is non-empty, `none` exactly when it is empty. -/
def TuiState.SelInvariant (s : TuiState) : Prop :=
  match s.history_index with
  | some i => i < s.history.length
  | none => s.history = []

instance (s : TuiState) : Decidable s.SelInvariant :=
  match hx : s.history_index with
  | some i =>
    decidable_of_iff (i < s.history.length) (by unfold TuiState.SelInvariant; rw [hx])
  | none =>
    decidable_of_iff (s.history = []) (by unfold TuiState.SelInvariant; rw [hx])

/-- Any state whose index was just reset to `first_history_index` satisfies
the selection invariant, and that index is `some 0` or `none`. -/
theorem sel_of_first (s : TuiState) :
    ({ s with history_index := s.first_history_index } : TuiState).SelInvariant := by
  unfold TuiState.SelInvariant TuiState.first_history_index
  dsimp only
  by_cases h : s.history.isEmpty
  · rw [if_pos h]
    exact (by simpa [List.isEmpty_iff] using h : s.history = [])
  · rw [if_neg h]
    exact List.length_pos.mpr (by simpa [List.isEmpty_iff] using h)

theorem apply_search_sel (lc : Char → List Char) (s : TuiState) :
    (s.apply_search lc).SelInvariant := by
  unfold TuiState.apply_search
  exact sel_of_first _

theorem apply_search_resets_index (lc : Char → List Char) (s : TuiState) :
    (s.apply_search lc).history_index =
      (if (s.apply_search lc).history.isEmpty then none else some 0) := by
  unfold TuiState.apply_search TuiState.first_history_index
  dsimp only

theorem new_sel (lc : Char → List Char) (h : List (Str × Str)) :
    (TuiState.new lc h).SelInvariant :=
  apply_search_sel lc _

theorem toggle_focus_sel (s : TuiState) (hs : s.SelInvariant) :
    s.toggle_focus.SelInvariant := hs

theorem activate_search_sel (lc : Char → List Char) (s : TuiState) :
    (s.activate_search lc).SelInvariant :=
  apply_search_sel lc _

theorem set_history_sel (lc : Char → List Char) (h : List (Str × Str)) (s : TuiState) :
    (s.set_history lc h).SelInvariant :=
  apply_search_sel lc _

theorem move_selection_up_sel (s : TuiState) (hs : s.SelInvariant) :
    s.move_history_selection_up.SelInvariant := by
  unfold TuiState.move_history_selection_up
  unfold TuiState.SelInvariant at hs
  cases hx : s.history_index with
  | none => exact sel_of_first s
  | some i =>
    rw [hx] at hs
    dsimp only at hs ⊢
    by_cases hi : i > 0
    · rw [if_pos hi]
      unfold TuiState.SelInvariant
      dsimp only
      omega
    · rw [if_neg hi]
      unfold TuiState.SelInvariant
      rw [hx]
      exact hs

theorem move_selection_down_sel (s : TuiState) (hs : s.SelInvariant) :
    s.move_history_selection_down.SelInvariant := by
  unfold TuiState.move_history_selection_down
  unfold TuiState.SelInvariant at hs
  cases hx : s.history_index with
  | none => exact sel_of_first s
  | some i =>
    rw [hx] at hs
    dsimp only at hs ⊢
    by_cases hi : i < s.history.length - 1
    · rw [if_pos hi]
      unfold TuiState.SelInvariant
      dsimp only
      omega
    · rw [if_neg hi]
      unfold TuiState.SelInvariant
      rw [hx]
      exact hs

theorem move_selection_up_shift (s : TuiState) (i : Nat) (hx : s.history_index = some i) :
    s.move_history_selection_up.history_index = some (i - 1) := by
  unfold TuiState.move_history_selection_up
  rw [hx]
  dsimp only
  by_cases hi : i > 0
  · rw [if_pos hi]
  · rw [if_neg hi]
    rw [hx]
    congr 1
    omega

theorem move_selection_down_shift (s : TuiState) (hs : s.SelInvariant) (i : Nat)
    (hx : s.history_index = some i) :
    s.move_history_selection_down.history_index =
      some (min (i + 1) (s.history.length - 1)) := by
  unfold TuiState.SelInvariant at hs
  rw [hx] at hs
  dsimp only at hs
  unfold TuiState.move_history_selection_down
  rw [hx]
  dsimp only
  by_cases hi : i < s.history.length - 1
  · rw [if_pos hi]
    rw [Nat.min_eq_left (by omega)]
  · rw [if_neg hi]
    rw [hx]
    rw [Nat.min_eq_right (by omega)]
    congr 1
    omega

theorem submit_sel (lc : Char → List Char) (o : StorageOracle) (s : TuiState)
    (hs : s.SelInvariant) : (submit_input_if_ready lc o s).1.SelInvariant := by
  unfold submit_input_if_ready
  dsimp only
  split
  · exact hs
  · split
    · exact hs
    · rcases o.insertResult with e | u
      · exact hs
      · rcases o.fetchResult with e | h
        · exact hs
        · exact apply_search_sel lc _

theorem apply_action_sel (lc : Char → List Char) (o : StorageOracle) (s : TuiState)
    (a : Action) (hs : s.SelInvariant) : (apply_action lc o s a).1.SelInvariant := by
  cases a with
  | Quit => exact hs
  | ToggleFocus => exact hs
  | ActivateSearch => exact apply_search_sel lc _
  | SubmitInput => exact submit_sel lc o s hs
  | InsertNewline =>
    unfold apply_action insert_newline_if_input_focus
    dsimp only
    split <;> exact hs
  | MoveUp =>
    unfold apply_action
    dsimp only
    cases s.focus
    · exact hs
    · exact hs
    · exact move_selection_up_sel s hs
  | MoveDown =>
    unfold apply_action
    dsimp only
    cases s.focus
    · exact hs
    · exact hs
    · exact move_selection_down_sel s hs
  | MoveLeft =>
    unfold apply_action
    dsimp only
    split <;> exact hs
  | MoveRight =>
    unfold apply_action
    dsimp only
    split <;> exact hs
  | Backspace =>
    unfold apply_action
    dsimp only
    cases s.focus
    · exact apply_search_sel lc _
    · exact hs
    · exact hs
  | Delete =>
    unfold apply_action
    dsimp only
    split <;> exact hs
  | InsertChar ch =>
    unfold apply_action
    dsimp only
    cases s.focus
    · exact apply_search_sel lc _
    · exact hs
    · exact hs

/-- Claim C7: the selection invariant — an in-range `some` index exactly when the
filtered history is non-empty, `none` exactly when it is empty — holds after
state creation and is preserved by every action (with any storage outcome);
every recomputation of the filtered list resets the index to `some 0` or
`none`; `MoveUp`/`MoveDown` shift the index by one, clamped at `0` and at
`len - 1` with no wraparound. -/
theorem history_selection_spec (lc : Char → List Char) (o : StorageOracle) (s : TuiState)
    (a : Action) (h0 : List (Str × Str)) (hs : s.SelInvariant) :
    (TuiState.new lc h0).SelInvariant ∧
      (s.apply_search lc).SelInvariant ∧
      (s.apply_search lc).history_index =
        (if (s.apply_search lc).history.isEmpty then none else some 0) ∧
      (s.set_history lc h0).history_index =
        (if (s.set_history lc h0).history.isEmpty then none else some 0) ∧
      (s.activate_search lc).history_index =
        (if (s.activate_search lc).history.isEmpty then none else some 0) ∧
      (apply_action lc o s a).1.SelInvariant ∧
      (∀ i, s.history_index = some i →
        s.move_history_selection_up.history_index = some (i - 1)) ∧
      (∀ i, s.history_index = some i →
        s.move_history_selection_down.history_index =
          some (min (i + 1) (s.history.length - 1))) :=
  ⟨new_sel lc h0, apply_search_sel lc s, apply_search_resets_index lc s,
    apply_search_resets_index lc _, apply_search_resets_index lc _,
    apply_action_sel lc o s a hs,
    fun i hx => move_selection_up_shift s i hx,
    fun i hx => move_selection_down_shift s hs i hx⟩

/-- Witness for C7 at a concrete state, action, and storage outcome. -/
theorem history_selection_spec_witness :
    ((apply_action asciiLower
        ⟨Except.ok (), Except.ok []⟩
        (TuiState.new asciiLower [(['t'], ['a'])])
        Action.MoveDown).1).SelInvariant :=
  (history_selection_spec asciiLower ⟨Except.ok (), Except.ok []⟩
      (TuiState.new asciiLower [(['t'], ['a'])]) Action.MoveDown []
      (by decide)).2.2.2.2.2.1

/-! ## C8: the focus state machine -/

theorem apply_search_preserves_focus (lc : Char → List Char) (s : TuiState) :
    (s.apply_search lc).focus = s.focus := by
  unfold TuiState.apply_search
  dsimp only
  split <;> rfl

theorem apply_search_preserves_search (lc : Char → List Char) (s : TuiState) :
    (s.apply_search lc).search = s.search := by
  unfold TuiState.apply_search
  dsimp only
  split <;> rfl

/-- Claim C8: the focus machine starts in `Input`; `Tab` maps to `ToggleFocus`
under every modifier set and toggling sends Input to History, History to
Input, and Search to History; `/` while focused on History maps to
`ActivateSearch`, which moves the focus to Search and clears the query;
hence `Tab, Tab` from Input returns to Input, and `/ , Tab` from History
goes to Search and then to History, not back to Input. -/
theorem focus_machine_spec (lc : Char → List Char) (h0 : List (Str × Str)) (s : TuiState)
    (m : KeyModifiers) :
    (TuiState.new lc h0).focus = Focus.Input ∧
      (s.focus = Focus.Input → s.toggle_focus.focus = Focus.History) ∧
      (s.focus = Focus.History → s.toggle_focus.focus = Focus.Input) ∧
      (s.focus = Focus.Search → s.toggle_focus.focus = Focus.History) ∧
      key_to_action KeyCode.Tab m s.focus = some Action.ToggleFocus ∧
      (s.focus = Focus.History →
        key_to_action (KeyCode.Char '/') m s.focus = some Action.ActivateSearch) ∧
      (s.activate_search lc).focus = Focus.Search ∧
      (s.activate_search lc).search.query = [] ∧
      (s.focus = Focus.Input → s.toggle_focus.toggle_focus.focus = Focus.Input) ∧
      (s.focus = Focus.History →
        ((s.activate_search lc).toggle_focus).focus = Focus.History) := by
  refine ⟨?_, ?_, ?_, ?_, ?_, ?_, ?_, ?_, ?_, ?_⟩
  · rw [TuiState.new, apply_search_preserves_focus]
  · intro h
    simp [TuiState.toggle_focus, h]
  · intro h
    simp [TuiState.toggle_focus, h]
  · intro h
    simp [TuiState.toggle_focus, h]
  · unfold key_to_action
    rw [if_neg (by simp), if_neg (by simp), if_pos rfl]
  · intro h
    unfold key_to_action
    rw [if_neg (by simp), if_neg (by simp), if_neg (by simp),
      if_pos (by exact ⟨h, rfl⟩)]
  · rw [TuiState.activate_search, apply_search_preserves_focus]
  · rw [TuiState.activate_search, apply_search_preserves_search]
    rfl
  · intro h
    simp [TuiState.toggle_focus, h]
  · intro h
    have h1 : (s.activate_search lc).focus = Focus.Search := by
      rw [TuiState.activate_search, apply_search_preserves_focus]
    simp [TuiState.toggle_focus, h1]

/-- Witness for C8: `Tab, Tab` from the initial state returns to `Input`. -/
theorem focus_machine_spec_witness :
    (TuiState.new asciiLower []).toggle_focus.toggle_focus.focus = Focus.Input :=
  (focus_machine_spec asciiLower [] (TuiState.new asciiLower [])
      KeyModifiers.control).2.2.2.2.2.2.2.2.1 (by decide)

/-! ## C2: SubmitInput -/

/-- Claim C2: `SubmitInput` is a no-op — state unchanged, no storage calls — unless
the focus is on the input pane and the buffer is non-empty; when the guard
passes it makes exactly one insert call with the joined buffer text, then
exactly one history fetch, then clears the buffer and its status; when the
insert fails the error propagates, the state (and so the draft) is
unchanged, and no fetch happens. -/
theorem submit_input_spec (lc : Char → List Char) (o : StorageOracle) (s : TuiState) :
    ((s.focus ≠ Focus.Input ∨ s.input.is_empty = true) →
      submit_input_if_ready lc o s = (s, Except.ok (), ⟨[], 0⟩)) ∧
      (s.focus = Focus.Input → s.input.is_empty = false →
        (∀ e, o.insertResult = Except.error e →
          submit_input_if_ready lc o s = (s, Except.error e, ⟨[s.input.text], 0⟩)) ∧
        (∀ e, o.insertResult = Except.ok () → o.fetchResult = Except.error e →
          submit_input_if_ready lc o s = (s, Except.error e, ⟨[s.input.text], 1⟩)) ∧
        (∀ h, o.insertResult = Except.ok () → o.fetchResult = Except.ok h →
          submit_input_if_ready lc o s =
            ({ TuiState.set_history lc h s with
                input := (TuiState.set_history lc h s).input.clear },
              Except.ok (), ⟨[s.input.text], 1⟩))) := by
  constructor
  · intro h
    unfold submit_input_if_ready
    rcases h with h | h
    · rw [if_pos h]
    · by_cases hf : s.focus ≠ Focus.Input
      · rw [if_pos hf]
      · rw [if_neg hf, if_pos h]
  · intro hf he
    have hf' : ¬ s.focus ≠ Focus.Input := by simp [hf]
    refine ⟨?_, ?_, ?_⟩
    · intro e hins
      unfold submit_input_if_ready
      rw [if_neg hf', if_neg (by simp [he]), hins]
    · intro e hins hfetch
      unfold submit_input_if_ready
      rw [if_neg hf', if_neg (by simp [he]), hins, hfetch]
    · intro h hins hfetch
      unfold submit_input_if_ready
      rw [if_neg hf', if_neg (by simp [he]), hins, hfetch]

/-- The spec's submit scenario state: focus on Input, buffer `"buy milk"`. -/
def submitExample : TuiState :=
  { search := SearchState.new
    input := { lines := [['b', 'u', 'y', ' ', 'm', 'i', 'l', 'k']], status := none,
               cursor := ⟨0, 8, none⟩ }
    history := []
    all_history := []
    focus := Focus.Input
    history_index := none }

/-- Witness for C2: submitting `"buy milk"` with a failing insert keeps the
draft (the state is unchanged) and makes no fetch. -/
theorem submit_input_spec_witness :
    submit_input_if_ready asciiLower ⟨Except.error ⟨7⟩, Except.ok []⟩ submitExample =
      (submitExample, Except.error ⟨7⟩,
        ⟨[['b', 'u', 'y', ' ', 'm', 'i', 'l', 'k']], 0⟩) :=
  ((submit_input_spec asciiLower ⟨Except.error ⟨7⟩, Except.ok []⟩ submitExample).2
      (by decide) (by decide)).1 ⟨7⟩ rfl

/-! ## C10: `is_empty` and newline-only submissions -/

/-- Claim C10: `is_empty` holds exactly for the one-empty-line buffer, so a buffer
of two empty lines (plain Enter in a fresh buffer) is not empty, passes the
submit guard, and is stored as the newline-only content `"\n"`. -/
theorem is_empty_spec (s : InputState) :
    (s.is_empty = true ↔ s.lines = [[]]) ∧
      InputState.new.newline.lines = [[], []] ∧
      InputState.new.newline.is_empty = false ∧
      (submit_input_if_ready asciiLower ⟨Except.ok (), Except.ok []⟩
          { submitExample with input := InputState.new.newline }).2.2 =
        ⟨[[Char.ofNat 10]], 1⟩ ∧
      (submit_input_if_ready asciiLower ⟨Except.ok (), Except.ok []⟩
          { submitExample with input := InputState.new.newline }).1.input =
        InputState.new := by
  refine ⟨?_, by decide, by decide, by decide, by decide⟩
  unfold InputState.is_empty
  cases hl : s.lines with
  | nil => simp
  | cons a rest =>
    cases rest with
    | nil => simp [List.isEmpty_iff]
    | cons b rest' => simp

/-! ## C9: terminal teardown -/

/-- First error in a list of optional step errors. -/
def firstSome {E : Type} : List (Option E) → Option E
  | [] => none
  | some e :: _ => some e
  | none :: rest => firstSome rest

theorem keepFirst_chain {E : Type} (a b c d : Option E) :
    keepFirst (keepFirst (keepFirst (keepFirst none a) b) c) d = firstSome [a, b, c, d] := by
  cases a <;> cases b <;> cases c <;> cases d <;> rfl

/-- Claim C9: teardown runs every cleanup sub-step in order on the threaded
terminal state regardless of earlier failures — the final terminal state is
the composition of all sub-steps — and the error returned is the first one
any sub-step produced, available only once all sub-steps have run; and on
every exit path of the session (initial fetch failure, loop error, normal
exit) the teardown runs exactly once, via the guard or its drop handler. -/
theorem restore_terminal_spec {T E : Type} (ke : Bool)
    (disableRaw popKeyboard leaveScreen showCursor : T → T × Option E) (t : T) :
    (restore_terminal ke disableRaw popKeyboard leaveScreen showCursor t =
      (let r1 := disableRaw t
       let r2 := if ke then popKeyboard r1.1 else (r1.1, none)
       let r3 := leaveScreen r2.1
       let r4 := showCursor r3.1
       (r4.1, firstSome [r1.2, r2.2, r3.2, r4.2]))) ∧
      (∀ fetchRes loopRes restoreRes,
        (run_tui_flow fetchRes loopRes restoreRes).2 = 1) := by
  constructor
  · unfold restore_terminal
    dsimp only
    rw [keepFirst_chain]
  · intro f l r
    unfold run_tui_flow TerminalGuard.restore TerminalGuard.drop
    rcases f with e | h
    · rfl
    · rfl

end Cap
